import Mathlib

/-!
Verification of the agent execution contract of the `example-app-template`
repository (`src/agents/base_agent.py`, `src/agents/sample_agent.py`,
`src/api/routes.py`), as a shallow embedding in Lean 4.

Modelling conventions:
* Python dictionaries with string keys are embedded as insertion-ordered
  association lists `List (String × Value)`; adding a fresh key appends a
  pair at the end, exactly as CPython preserves insertion order.  Field
  *presence* in a result mapping is therefore observable (`dictGet` returns
  `none` for an absent key).
* Wall-clock readings (`datetime.utcnow()`) and the derived duration are
  inputs of the embedding, supplied through a `Clock` record: the code
  treats them as inert data, never branching on them.
* A possible exception raised inside the `try` body of
  `SampleAgent.execute` (before the history append) is modelled by an
  explicit `fault : Option String` oracle carrying the exception message.
  `fault = none` is the fault-free execution; for a `str` task and a `dict`
  context every operation in the `try` body (the fixed `asyncio.sleep`,
  dict-literal construction, `list(context.keys())`, the list append inside
  `log_execution`) is total in Python, so the fault-free path is the
  behaviour of the program on well-typed inputs.
* Python exceptions never escape `execute` (the `except Exception` handler
  returns a value); accordingly the embedding of `execute` is a total
  function returning the result mapping and the updated agent, not an
  `Except`.
-/

/-- Values stored in the embedded Python dictionaries: strings, booleans
and lists (the only value shapes the agent code ever writes). -/
inductive Value where
  | str (s : String)
  | bool (b : Bool)
  | list (l : List Value)
deriving Repr

/-- An insertion-ordered Python dict with string keys. -/
abbrev Dict := List (String × Value)

/-- Key lookup in an embedded dict (`d[k]` / `k in d`): first binding wins,
`none` means the key is absent. -/
def dictGet : Dict → String → Option Value
  | [], _ => none
  | (k, v) :: rest, key => if k = key then some v else dictGet rest key

/-- One entry of `execution_history`, from `BaseAgent.log_execution`:
`{"timestamp": ..., "agent": self.name, "task": task, "result": result,
"duration": duration, "model": self.model}`. -/
structure ExecutionRecord where
  timestamp : String
  agent : String
  task : String
  result : Dict
  duration : Rat
  model : String
deriving Repr

/-- The mutable state of a `BaseAgent` instance: the five constructor
fields plus the per-instance `execution_history` list. -/
structure Agent where
  name : String
  model : String
  temperature : Rat
  max_iterations : Nat
  timeout : Nat
  execution_history : List ExecutionRecord
deriving Repr

/-- Embeds `BaseAgent.__init__`: stores the five parameters and creates an empty
`execution_history`. -/
def BaseAgent.init (name model : String) (temperature : Rat)
    (max_iterations timeout : Nat) : Agent :=
  { name := name, model := model, temperature := temperature,
    max_iterations := max_iterations, timeout := timeout,
    execution_history := [] }

/-- The agent-related fields of the global `settings` object
(`src/config.py`, class `Settings`), at their declared defaults. -/
structure Settings where
  AGENT_MAX_ITERATIONS : Nat
  AGENT_TIMEOUT : Nat
  AGENT_MODEL : String
  AGENT_TEMPERATURE : Rat

/-- The global `settings = Settings()` instance with the in-source defaults
(`AGENT_MAX_ITERATIONS = 10`, `AGENT_TIMEOUT = 300`,
`AGENT_MODEL = "gpt-4"`, `AGENT_TEMPERATURE = 0.7`). -/
def settings : Settings :=
  { AGENT_MAX_ITERATIONS := 10, AGENT_TIMEOUT := 300,
    AGENT_MODEL := "gpt-4", AGENT_TEMPERATURE := 7/10 }

/-- The keyword arguments accepted by `SampleAgent.__init__` (`kwargs.get`
with a settings default for each). -/
structure SampleAgentKwargs where
  model : Option String
  temperature : Option Rat
  max_iterations : Option Nat
  timeout : Option Nat
deriving Repr

/-- Embeds `SampleAgent.__init__`: delegates to `BaseAgent.__init__` with the
fixed name `"sample-agent"` and each remaining parameter taken from
`kwargs` or from `settings`. -/
def SampleAgent.init (kwargs : SampleAgentKwargs) : Agent :=
  BaseAgent.init "sample-agent"
    (kwargs.model.getD settings.AGENT_MODEL)
    (kwargs.temperature.getD settings.AGENT_TEMPERATURE)
    (kwargs.max_iterations.getD settings.AGENT_MAX_ITERATIONS)
    (kwargs.timeout.getD settings.AGENT_TIMEOUT)

/-- The wall-clock readings taken during one `execute` call:
the `utcnow().isoformat()` written into the result mapping, the one
written into the execution record, and the elapsed duration in seconds. -/
structure Clock where
  resultTs : String
  recordTs : String
  duration : Rat
deriving Repr

/-- Embeds `BaseAgent.log_execution`: builds an execution record from the task,
result, duration and the current timestamp, and appends it to
`execution_history`. -/
def log_execution (a : Agent) (task : String) (result : Dict)
    (duration : Rat) (ts : String) : Agent :=
  let execution_record : ExecutionRecord :=
    { timestamp := ts, agent := a.name, task := task, result := result,
      duration := duration, model := a.model }
  { a with execution_history := a.execution_history ++ [execution_record] }

/-- Embeds `SampleAgent.execute` with the fault oracle made explicit.
`fault = none` runs the `try` body: sleep, build the success mapping
(status, task, response, agent, model, context_provided, timestamp), add
`context_keys` when the context dict is truthy (present and non-empty),
log the execution, return the mapping.  `fault = some msg` runs the
`except Exception` handler: build the error mapping (status, task, error,
timestamp), log the execution, return the mapping.  Either way the call
returns a value — the handler never re-raises. -/
def executeWith (a : Agent) (task : String) (context : Option Dict)
    (clock : Clock) (fault : Option String) : Dict × Agent :=
  match fault with
  | none =>
    let result : Dict :=
      [("status", Value.str "success"),
       ("task", Value.str task),
       ("response", Value.str ("Processed task: " ++ task)),
       ("agent", Value.str a.name),
       ("model", Value.str a.model),
       ("context_provided", Value.bool context.isSome),
       ("timestamp", Value.str clock.resultTs)]
    let result : Dict :=
      match context with
      | some c =>
        if c.isEmpty then result
        else result ++ [("context_keys", Value.list (c.map fun kv => Value.str kv.1))]
      | none => result
    let a := log_execution a task result clock.duration clock.recordTs
    (result, a)
  | some msg =>
    let error_result : Dict :=
      [("status", Value.str "error"),
       ("task", Value.str task),
       ("error", Value.str msg),
       ("timestamp", Value.str clock.resultTs)]
    let a := log_execution a task error_result clock.duration clock.recordTs
    (error_result, a)

/-- Embeds `SampleAgent.execute` on well-typed inputs: no operation in the `try`
body raises, so this is `executeWith` at `fault = none`. -/
def execute (a : Agent) (task : String) (context : Option Dict)
    (clock : Clock) : Dict × Agent :=
  executeWith a task context clock none

/-- Embeds `BaseAgent.get_execution_history`: `return self.execution_history`. -/
def get_execution_history (a : Agent) : List ExecutionRecord :=
  a.execution_history

/-- Embeds `BaseAgent.clear_history`: `self.execution_history.clear()`. -/
def clear_history (a : Agent) : Agent :=
  { a with execution_history := [] }

/-- Embeds `SampleAgent.analyze`:
`return await self.execute(f"Analyze: {data}", {"operation": "analyze"})`. -/
def analyze (a : Agent) (data : String) (clock : Clock) : Dict × Agent :=
  execute a ("Analyze: " ++ data) (some [("operation", Value.str "analyze")]) clock

/-- Embeds `SampleAgent.generate`:
`return await self.execute(f"Generate: {prompt}", {"operation": "generate"})`. -/
def generate (a : Agent) (prompt : String) (clock : Clock) : Dict × Agent :=
  execute a ("Generate: " ++ prompt) (some [("operation", Value.str "generate")]) clock

/-- The inputs of one call in a sequence of `execute` calls: its task,
context, clock readings and fault oracle. -/
structure CallInput where
  task : String
  context : Option Dict
  clock : Clock
  fault : Option String

/-- Run a sequence of `execute` calls against the same agent instance,
threading the state and discarding the returned mappings. -/
def runCalls (a : Agent) : List CallInput → Agent
  | [] => a
  | c :: rest => runCalls (executeWith a c.task c.context c.clock c.fault).2 rest

/-- Helper: one `executeWith` call, success or failure, appends exactly one
record to the history, and that record's `task` field is the call's task. -/
theorem executeWith_history (a : Agent) (task : String) (context : Option Dict)
    (clock : Clock) (fault : Option String) :
    ((executeWith a task context clock fault).2.execution_history).map
        (fun rec => rec.task)
      = a.execution_history.map (fun rec => rec.task) ++ [task]
    ∧ (executeWith a task context clock fault).2.execution_history.length
      = a.execution_history.length + 1 := by
  cases fault with
  | none =>
    cases context with
    | none => exact ⟨by simp [executeWith, log_execution], by simp [executeWith, log_execution]⟩
    | some c =>
      by_cases hc : c.isEmpty <;>
        exact ⟨by simp [executeWith, log_execution, hc],
               by simp [executeWith, log_execution, hc]⟩
  | some msg => exact ⟨by simp [executeWith, log_execution], by simp [executeWith, log_execution]⟩

/-- C1: on the fault-free path, for every task `t` and every (present or
absent) context, `execute` returns a mapping whose `status` is
`"success"`, whose `task` is `t`, whose `response` is the non-empty string
`"Processed task: " ++ t`, and which carries the agent's name and model. -/
theorem execute_success_fields (a : Agent) (t : String) (context : Option Dict)
    (clock : Clock) :
    dictGet (execute a t context clock).1 "status" = some (Value.str "success")
    ∧ dictGet (execute a t context clock).1 "task" = some (Value.str t)
    ∧ dictGet (execute a t context clock).1 "response"
        = some (Value.str ("Processed task: " ++ t))
    ∧ ("Processed task: " ++ t) ≠ ""
    ∧ dictGet (execute a t context clock).1 "agent" = some (Value.str a.name)
    ∧ dictGet (execute a t context clock).1 "model" = some (Value.str a.model) := by
  have hne : ("Processed task: " ++ t) ≠ "" := by
    intro h
    have hlen := congrArg String.length h
    simp [String.length_append] at hlen
    exact absurd hlen.1 (by decide)
  cases context with
  | none => exact ⟨rfl, rfl, rfl, hne, rfl, rfl⟩
  | some c =>
    by_cases hc : c.isEmpty <;>
      · refine ⟨?_, ?_, ?_, hne, ?_, ?_⟩ <;> simp [execute, executeWith, dictGet, hc]

/-- Helper: `runCalls` appends the tasks of the calls, in call order, to
the task projection of the history. -/
theorem runCalls_history_tasks (calls : List CallInput) (a : Agent) :
    ((runCalls a calls).execution_history).map (fun rec => rec.task)
      = a.execution_history.map (fun rec => rec.task)
        ++ calls.map (fun c => c.task) := by
  induction calls generalizing a with
  | nil => simp [runCalls]
  | cons c rest ih =>
    rw [runCalls, ih, (executeWith_history a c.task c.context c.clock c.fault).1]
    simp

/-- C2: every `execute` call, successful or failing, appends exactly one
record to the instance's history; starting from a freshly constructed
`SampleAgent`, after a sequence of calls the history has one record per
call, in call order, and the k-th record's `task` equals the k-th call's
task argument. -/
theorem execute_history_tracking :
    (∀ (a : Agent) (task : String) (context : Option Dict) (clock : Clock)
        (fault : Option String),
      (executeWith a task context clock fault).2.execution_history.length
        = a.execution_history.length + 1)
    ∧ ∀ (kwargs : SampleAgentKwargs) (calls : List CallInput),
        (runCalls (SampleAgent.init kwargs) calls).execution_history.length
          = calls.length
        ∧ ((runCalls (SampleAgent.init kwargs) calls).execution_history).map
              (fun rec => rec.task)
          = calls.map (fun c => c.task) := by
  refine ⟨fun a task context clock fault =>
    (executeWith_history a task context clock fault).2, fun kwargs calls => ?_⟩
  have h := runCalls_history_tasks calls (SampleAgent.init kwargs)
  have hinit : (SampleAgent.init kwargs).execution_history = [] := rfl
  rw [hinit] at h
  simp only [List.map_nil, List.nil_append] at h
  refine ⟨?_, h⟩
  have hlen := congrArg List.length h
  simpa using hlen

/-- C3: when a failure occurs during processing (fault oracle `some msg`),
`execute` still returns a value — the handler converts the exception into
a mapping with status `"error"`, the original task, the failure message
and a timestamp — and still appends exactly one record to the history. -/
theorem execute_error_path (a : Agent) (t : String) (context : Option Dict)
    (clock : Clock) (msg : String) :
    dictGet (executeWith a t context clock (some msg)).1 "status"
        = some (Value.str "error")
    ∧ dictGet (executeWith a t context clock (some msg)).1 "task"
        = some (Value.str t)
    ∧ dictGet (executeWith a t context clock (some msg)).1 "error"
        = some (Value.str msg)
    ∧ dictGet (executeWith a t context clock (some msg)).1 "timestamp"
        = some (Value.str clock.resultTs)
    ∧ (executeWith a t context clock (some msg)).2.execution_history.length
        = a.execution_history.length + 1 := by
  exact ⟨rfl, rfl, rfl, rfl, (executeWith_history a t context clock (some msg)).2⟩

/-- C4: with a non-empty context dict `c`, the result reports
`context_provided = true` and `context_keys` equal to the ordered key list
of `c`. -/
theorem execute_context_keys (a : Agent) (t : String) (c : Dict) (clock : Clock)
    (h : c ≠ []) :
    dictGet (execute a t (some c) clock).1 "context_provided"
        = some (Value.bool true)
    ∧ dictGet (execute a t (some c) clock).1 "context_keys"
        = some (Value.list (c.map fun kv => Value.str kv.1)) := by
  have hc : c.isEmpty = false := by
    cases c with
    | nil => exact absurd rfl h
    | cons x xs => rfl
  constructor
  · simp [execute, executeWith, dictGet, hc]
  · simp [execute, executeWith, dictGet, hc]

/-- Witness for C4 at a concrete one-key context. -/
theorem execute_context_keys_witness :
    ([("k", Value.str "v")] : Dict) ≠ []
    ∧ (dictGet (execute (SampleAgent.init ⟨none, none, none, none⟩) "t"
          (some [("k", Value.str "v")]) ⟨"ts1", "ts2", 0⟩).1 "context_provided"
        = some (Value.bool true)
      ∧ dictGet (execute (SampleAgent.init ⟨none, none, none, none⟩) "t"
          (some [("k", Value.str "v")]) ⟨"ts1", "ts2", 0⟩).1 "context_keys"
        = some (Value.list [Value.str "k"])) :=
  ⟨by simp, execute_context_keys (SampleAgent.init ⟨none, none, none, none⟩) "t"
    [("k", Value.str "v")] ⟨"ts1", "ts2", 0⟩ (by simp)⟩

/-- C9: with a context that is supplied but empty, the result has
`context_provided = true` (the mapping is not `None`) yet carries no
`context_keys` field at all (the truthiness test on the empty dict fails,
so the branch that would add the key is skipped). -/
theorem execute_empty_context (a : Agent) (t : String) (clock : Clock) :
    dictGet (execute a t (some []) clock).1 "context_provided"
        = some (Value.bool true)
    ∧ dictGet (execute a t (some []) clock).1 "context_keys" = none :=
  ⟨rfl, rfl⟩

/-- C10: on well-typed inputs no operation in the `try` body of `execute`
raises, so the `except` branch never runs: the returned mapping always has
status `"success"` and never status `"error"`. -/
theorem execute_error_branch_unreachable (a : Agent) (t : String)
    (context : Option Dict) (clock : Clock) :
    dictGet (execute a t context clock).1 "status" = some (Value.str "success")
    ∧ dictGet (execute a t context clock).1 "status" ≠ some (Value.str "error") := by
  have hs : dictGet (execute a t context clock).1 "status"
      = some (Value.str "success") := by
    cases context with
    | none => rfl
    | some c => by_cases hc : c.isEmpty <;> simp [execute, executeWith, dictGet, hc]
  refine ⟨hs, ?_⟩
  rw [hs]
  simp

/-- C6: `analyze` and `generate` are exactly delegations to `execute` with
the documented task text and operation context; consequently each returns
status `"success"` and appends exactly one record to the history. -/
theorem analyze_generate_delegate (a : Agent) (d p : String) (clock : Clock) :
    analyze a d clock
        = execute a ("Analyze: " ++ d)
            (some [("operation", Value.str "analyze")]) clock
    ∧ generate a p clock
        = execute a ("Generate: " ++ p)
            (some [("operation", Value.str "generate")]) clock
    ∧ dictGet (analyze a d clock).1 "status" = some (Value.str "success")
    ∧ (analyze a d clock).2.execution_history.length
        = a.execution_history.length + 1
    ∧ dictGet (generate a p clock).1 "status" = some (Value.str "success")
    ∧ (generate a p clock).2.execution_history.length
        = a.execution_history.length + 1 := by
  refine ⟨rfl, rfl, rfl, ?_, rfl, ?_⟩
  · exact (executeWith_history a ("Analyze: " ++ d)
      (some [("operation", Value.str "analyze")]) clock none).2
  · exact (executeWith_history a ("Generate: " ++ p)
      (some [("operation", Value.str "generate")]) clock none).2

/-- The body of the `GET /api/v1/agent/history` response
(`routes.get_agent_history`). -/
structure HistoryResponse where
  status : String
  count : Nat
  history : List ExecutionRecord
deriving Repr

/-- Embeds `routes.get_agent_history`: constructs a brand-new `SampleAgent()` with
no keyword arguments, reads its (necessarily empty) history, and wraps it
in a response. -/
def get_agent_history : HistoryResponse :=
  let agent := SampleAgent.init ⟨none, none, none, none⟩
  let history := get_execution_history agent
  { status := "success", count := history.length, history := history }

/-- Serving any sequence of execute/analyze/generate requests before the
history request: each handler in `routes.py` constructs its own
`SampleAgent()` and drops it when the request ends, so no agent state
survives between requests and the history handler's behaviour cannot
depend on the earlier requests. -/
def serve_history_after (priorRequests : List CallInput) : HistoryResponse :=
  let _ := priorRequests.map fun c =>
    (executeWith (SampleAgent.init ⟨none, none, none, none⟩)
      c.task c.context c.clock c.fault).1
  get_agent_history

/-- C7: the history endpoint builds a fresh agent per request, so whatever
requests were served before, it answers with an empty history and count 0. -/
theorem get_agent_history_always_empty (priorRequests : List CallInput) :
    (serve_history_after priorRequests).status = "success"
    ∧ (serve_history_after priorRequests).count = 0
    ∧ (serve_history_after priorRequests).history = [] :=
  ⟨rfl, rfl, rfl⟩

/-- C8: `clear_history` empties the history unconditionally — for any prior
history length, `get_execution_history` afterwards is empty — and leaves
the name, model, temperature, max_iterations and timeout fields unchanged. -/
theorem clear_history_clears (a : Agent) :
    get_execution_history (clear_history a) = []
    ∧ (clear_history a).name = a.name
    ∧ (clear_history a).model = a.model
    ∧ (clear_history a).temperature = a.temperature
    ∧ (clear_history a).max_iterations = a.max_iterations
    ∧ (clear_history a).timeout = a.timeout :=
  ⟨rfl, rfl, rfl, rfl, rfl, rfl⟩

/-!
Reference-semantics model for C5.  In Python, lists are heap objects and
`return self.execution_history` returns the list object itself, not a
copy.  `Store` maps list addresses to list contents; an `AgentObj` is the
identity-relevant part of a `BaseAgent` instance: the address of its
`execution_history` list object.
-/

/-- A heap of Python list objects holding execution records; addresses are
indices into `lists`. -/
structure Store where
  lists : List (List ExecutionRecord)

/-- Dereference the list object at `addr`. -/
def Store.read (s : Store) (addr : Nat) : List ExecutionRecord :=
  s.lists.getD addr []

/-- In-place `lst.append(r)` on the list object at `addr` — the caller-side
mutation the claim speaks about. -/
def Store.appendAt (s : Store) (addr : Nat) (r : ExecutionRecord) : Store :=
  ⟨s.lists.set addr (s.lists.getD addr [] ++ [r])⟩

/-- A `BaseAgent` instance under reference semantics: the address of its
`execution_history` list object. -/
structure AgentObj where
  historyAddr : Nat

/-- Embeds `BaseAgent.get_execution_history` under reference semantics:
`return self.execution_history` hands out the very list object — its
address — with no copy taken. -/
def get_execution_history_obj (a : AgentObj) : Nat :=
  a.historyAddr

/-- A concrete execution record used in the C5 scenario. -/
def r0 : ExecutionRecord :=
  { timestamp := "2024-01-01T00:00:00", agent := "sample-agent",
    task := "task 1", result := [], duration := 0, model := "gpt-4" }

/-- C5 counterexample: for a concrete agent whose history list lives at
address 0 of a one-object heap, appending through the sequence returned by
`get_execution_history` changes the agent's internal history — the
returned value is not a copy or immutable view. -/
theorem get_history_mutation_leaks :
    ¬ (Store.read
        (Store.appendAt ⟨[[]]⟩ (get_execution_history_obj ⟨0⟩) r0)
        (AgentObj.mk 0).historyAddr
      = Store.read ⟨[[]]⟩ (AgentObj.mk 0).historyAddr) := by
  simp [Store.read, Store.appendAt, get_execution_history_obj]

/-- C5 (amended): `get_execution_history` returns the full history in call
order, but as the internal list object itself (an alias): the returned
address is the agent's own `historyAddr`, and appending through the
returned sequence appends to the agent's internal history. -/
theorem get_history_returns_alias (a : AgentObj) (s : Store)
    (r : ExecutionRecord) (h : a.historyAddr < s.lists.length) :
    Store.read s (get_execution_history_obj a) = Store.read s a.historyAddr
    ∧ get_execution_history_obj a = a.historyAddr
    ∧ Store.read (Store.appendAt s (get_execution_history_obj a) r) a.historyAddr
        = Store.read s a.historyAddr ++ [r] := by
  refine ⟨rfl, rfl, ?_⟩
  simp only [Store.read, Store.appendAt, get_execution_history_obj]
  rw [List.getD_eq_getElem _ _ (by simpa using h),
    List.getElem_set_self]

/-- Witness for the amended C5 at the concrete one-object heap. -/
theorem get_history_returns_alias_witness :
    (AgentObj.mk 0).historyAddr < (Store.mk [[]]).lists.length
    ∧ (Store.read (Store.mk [[]]) (get_execution_history_obj ⟨0⟩)
          = Store.read (Store.mk [[]]) (AgentObj.mk 0).historyAddr
       ∧ get_execution_history_obj ⟨0⟩ = (AgentObj.mk 0).historyAddr
       ∧ Store.read
            (Store.appendAt (Store.mk [[]]) (get_execution_history_obj ⟨0⟩) r0)
            (AgentObj.mk 0).historyAddr
          = Store.read (Store.mk [[]]) (AgentObj.mk 0).historyAddr ++ [r0]) :=
  ⟨by decide, get_history_returns_alias ⟨0⟩ ⟨[[]]⟩ r0 (by decide)⟩
